import Mathlib

/-!
Shallow embedding of the streaming diffusion timeline engine of the
`final_project` repository (React frontend).

The definitions below are translated from the JavaScript source:

* `src/frontend/src/hooks/usePerImageTimeline.js`  — `computeNextOffsetFrom`
* `src/frontend/src/hooks/useDiffusionOrchestrator.js` — `diffuse`,
  `resetTimelineForActiveImage`, the `onFrame` callback of the slow run,
  and `useChartPoints` (the chart-point derivation)
* `src/frontend/src/hooks/useImageSwitch.js` — `switchToImage`
* `src/Pages/Dashboard/dashboard.jsx` — `handleSetScrubT`, the chart
  `onClick` wiring, and the scrub effect that updates the preview

JavaScript dynamic values are modelled explicitly: a field that may be
absent is an `Option`, and a metric value is a `JSVal` distinguishing a
finite number from a non-finite number (`NaN`, `±Infinity`) and from a
non-number value, matching the `typeof c === "number" && isFinite(c)`
tests of the source.  React state updates become explicit state passing;
fire-and-forget persistence calls (`saveFramesForImage`,
`deleteFramesForImage`, `slowDiffuse`) are recorded in issue logs so that
theorems can talk about what was issued.
-/

/-- A JavaScript value as it occurs in frame metric fields:
a finite number, a non-finite number (`NaN`, `±Infinity`, which have
`typeof === "number"` but fail `isFinite`), a string, or some other
non-number value. Absence of a field is modelled by `Option`. -/
inductive JSVal where
  | num (q : ℚ)
  | nonfinite
  | str (s : String)
  | other
deriving Repr, DecidableEq

/-- A step frame as delivered by the slow diffusion stream and stored in
the per-image timeline: `{ globalT, image, metrics, betas }`.
`metrics` is a JS object, modelled as a key/value list with
case-sensitive string keys (the source reads `f?.metrics?.Cosine`). -/
structure Frame where
  globalT : Int
  image : Option String := none
  metrics : List (String × JSVal) := []
  betas : Option JSVal := none
deriving Repr, DecidableEq

/-- JS truthiness of an optional string: `undefined`/`null` and the empty
string are falsy (`if (frame.image)`, `if (currentImageKey)`, `key || null`). -/
def truthyStr : Option String → Bool
  | none => false
  | some s => s ≠ ""

/-- JS `x || null` on an optional string: falsy values collapse to `null`. -/
def jsOrNull (o : Option String) : Option String :=
  if truthyStr o then o else none

/-- `typeof v === "number" && isFinite(v)`: returns the finite numeric
value when the test passes. -/
def finiteNum : Option JSVal → Option ℚ
  | some (JSVal.num q) => some q
  | _ => none

/-- `computeNextOffsetFrom` from `usePerImageTimeline.js`:
`(arr) => (arr.length ? arr[arr.length - 1].globalT + 1 : 0)`.
`arr[arr.length - 1]` of a non-empty array is its last element. -/
def computeNextOffsetFrom (arr : List Frame) : Int :=
  match arr.getLast? with
  | some last => last.globalT + 1
  | none => 0

/-- The timeline insertion performed by the slow-run `onFrame` handler in
`useDiffusionOrchestrator.js` (lines 102–111):

```
const idx = prev.findIndex((f) => f.globalT === frame.globalT);
const next = idx >= 0
  ? prev.map((p, i) => (i === idx ? frame : p))
  : [...prev, frame].sort((a, b) => a.globalT - b.globalT);
```

`prev.map((p, i) => i === idx ? frame : p)` is in-place replacement at
`idx`, i.e. `List.set`; the numeric-comparator `sort` is a stable sort by
`globalT`, i.e. `mergeSort` with `a.globalT ≤ b.globalT`. -/
def insertFrame (prev : List Frame) (frame : Frame) : List Frame :=
  match prev.findIdx? (fun f => f.globalT == frame.globalT) with
  | some idx => prev.set idx frame
  | none => (prev ++ [frame]).mergeSort (fun a b => a.globalT ≤ b.globalT)

/-- A chart point `{x, residual, beta}` as produced by `useChartPoints`;
`none` models JS `null`. -/
structure ChartPoint where
  x : Int
  residual : Option ℚ
  beta : Option ℚ
deriving Repr, DecidableEq

/-- `useChartPoints` from `useDiffusionOrchestrator.js` (the
`useChartPoints.js` hook, lines 269–285 of the claim's numbering):

```
frames.map((f) => {
  const c = f?.metrics?.Cosine;
  const b = f?.betas;
  return { x: f.globalT,
           residual: typeof c === "number" && isFinite(c) ? 1 - c : null,
           beta: typeof b === "number" && isFinite(b) ? b : null };
}).filter((p) => p.residual !== null || p.beta !== null)
```

Note the metrics key is the capitalised `"Cosine"`. -/
def useChartPoints (frames : List Frame) : List ChartPoint :=
  (frames.map fun f =>
    { x := f.globalT
      residual := match finiteNum (f.metrics.lookup "Cosine") with
                  | some c => some (1 - c)
                  | none => none
      beta := finiteNum f.betas : ChartPoint }).filter
    fun p => p.residual ≠ none ∨ p.beta ≠ none

/-- Run mode of the orchestrator (`useDiffusionOrchestrator.js`). -/
inductive Mode where
  | fast
  | slow
deriving Repr, DecidableEq

/-- The mutable application state touched by the diffusion orchestrator,
the image switcher and the dashboard scrub handlers.  React `useState`
cells and refs become fields; fire-and-forget calls are recorded:
`savesIssued` logs `saveFramesForImage(key, frames)` calls,
`deletesIssued` logs `deleteFramesForImage(key)` calls, `opensIssued`
logs the `tOffset` passed to each `slowDiffuse` open, and `fastIssued`
counts `fastDiffuse` requests.  `wsOpen` is whether the WebSocket handle
in `wsRef` is currently open. -/
structure AppState where
  frames : List Frame
  scrubT : Option Int
  tOffset : Int
  currentImageKey : Option String
  uploadedImage : Option String
  uploadedImageDataUrl : Option String
  diffusedImage : Option String
  currentStep : Nat
  isStreaming : Bool
  streamError : String
  followStream : Bool
  analysisAvailable : Bool
  wsOpen : Bool
  savesIssued : List (String × List Frame)
  deletesIssued : List String
  opensIssued : List Int
  fastIssued : Nat
deriving Repr, DecidableEq

/-- The slow-run `onFrame` callback of `useDiffusionOrchestrator.js`
(lines 99–116):

```
onFrame: async (frame) => {
  if (!frame.image) return;
  setFrames((prev) => {
    const idx = ...; const next = ...;          -- `insertFrame`
    if (currentImageKey) saveFramesForImage(currentImageKey, next);
    return next;
  });
  if (followStream && frame.image) setDiffusedImage(frame.image);
}
```

`key` and `follow` are the values of `currentImageKey` and
`followStream` captured by the callback's closure. -/
def onFrame (key : Option String) (follow : Bool) (frame : Frame)
    (st : AppState) : AppState :=
  if !truthyStr frame.image then st
  else
    let next := insertFrame st.frames frame
    let st := { st with frames := next }
    let st :=
      match key with
      | some k =>
        if k ≠ "" then { st with savesIssued := st.savesIssued ++ [(k, next)] }
        else st
      | none => st
    if follow then { st with diffusedImage := frame.image } else st

/-- Delivering a whole arrival sequence of step frames to `onFrame`. -/
def deliverAll (key : Option String) (follow : Bool)
    (arrivals : List Frame) (st : AppState) : AppState :=
  arrivals.foldl (fun s f => onFrame key follow f s) st

/-- `resetTimelineForActiveImage` from `useDiffusionOrchestrator.js`
(lines 46–63): close an open WebSocket (after sending a cancel message),
issue `deleteFramesForImage(currentImageKey)` when a key is active, then
clear the frames, progress counter and displayed image, reset
`tOffsetRef` to 0 and re-enable follow mode. -/
def resetTimelineForActiveImage (key : Option String) (st : AppState) :
    AppState :=
  let st := if st.wsOpen then { st with wsOpen := false } else st
  let st :=
    match key with
    | some k =>
      if k ≠ "" then { st with deletesIssued := st.deletesIssued ++ [k] }
      else st
    | none => st
  { st with frames := [], currentStep := 0, diffusedImage := none,
            tOffset := 0, followStream := true }

/-- `diffuse` from `useDiffusionOrchestrator.js` (lines 65–123).
`url` is `uploadedImageDataUrl` (so `canDiffuse = Boolean(url)`), `key`
is `currentImageKey`.  The fast branch issues one `fastDiffuse` request;
the slow branch resets the timeline, marks streaming, resets the offset
to the constant 0 and opens `slowDiffuse` at that offset.  The
asynchronous callbacks (`onFrame` etc.) fire later and are modelled
separately. -/
def diffuse (url key : Option String) (mode : Mode) (st : AppState) :
    AppState :=
  if !truthyStr url then
    { st with streamError := "Please upload an image first." }
  else
    match mode with
    | Mode.fast =>
      { st with streamError := "", isStreaming := false,
                followStream := true, fastIssued := st.fastIssued + 1 }
    | Mode.slow =>
      let st := resetTimelineForActiveImage key st
      let st := { st with streamError := "", isStreaming := true,
                          followStream := true }
      let nextOffset : Int := 0
      let st := { st with tOffset := nextOffset }
      { st with opensIssued := st.opensIssued ++ [nextOffset] }

/-- `switchToImage` from `useImageSwitch.js` (lines 22–58), with the
persistence store passed in as a pure lookup (`loadFramesForImage`
returns the stored frames, or `[]` for a falsy key; failures degrade to
`[]` and are outside this model).  The steps follow the source order:
close an open stream, clear the error, save the outgoing image's frames,
set the active image key/preview/payload (`key || null`), load the new
timeline, clear `scrubT`, recompute `tOffsetRef`, restore the preview
from the last loaded frame when it has an image payload (or clear the
preview when nothing was loaded), and re-enable follow mode. -/
def switchToImage (store : String → List Frame)
    (key imageUrl dataUrl : Option String) (st : AppState) : AppState :=
  let st := if st.wsOpen then { st with wsOpen := false } else st
  let st := { st with streamError := "" }
  let st :=
    match st.currentImageKey with
    | some k =>
      if k ≠ "" then { st with savesIssued := st.savesIssued ++ [(k, st.frames)] }
      else st
    | none => st
  let st := { st with currentImageKey := jsOrNull key,
                      uploadedImage := jsOrNull imageUrl,
                      uploadedImageDataUrl := jsOrNull dataUrl }
  let restored := if truthyStr key then store (key.getD "") else []
  let st := { st with frames := restored, scrubT := none,
                      tOffset := computeNextOffsetFrom restored }
  let st :=
    if restored.length ≠ 0 then
      match restored.getLast? with
      | some last =>
        if truthyStr last.image then { st with diffusedImage := last.image }
        else st
      | none => st
    else { st with diffusedImage := none }
  { st with analysisAvailable := restored.length > 0, followStream := true }

/-- `handleSetScrubT` from `dashboard.jsx` (lines 209–215), also the
inline `setScrubT` lambda handed to `TimelineStrip`:

```
(t) => { setScrubT(t); if (t != null) setFollowStream(false); }
```
-/
def handleSetScrubT (t : Option Int) (st : AppState) : AppState :=
  let st := { st with scrubT := t }
  match t with
  | some _ => { st with followStream := false }
  | none => st

/-- The chart `onClick` handler of `NoiseChart.jsx` / `BetaChart.jsx`,
wired in `dashboard.jsx` (lines 433–437) with the raw `setScrubT`:

```
onClick={(e) => { if (typeof e?.activeLabel === "number") setScrubT(e.activeLabel); }}
```

`activeLabel` is `none` when the click carries no numeric label. -/
def chartClick (activeLabel : Option Int) (st : AppState) : AppState :=
  match activeLabel with
  | some t => { st with scrubT := some t }
  | none => st

/-- The dashboard effect that pins the preview to the scrubbed frame
(`dashboard.jsx`, the "Update preview when scrubbing" effect):

```
if (scrubT == null) return;
const f = frames.find((x) => x.globalT === scrubT);
if (f?.image) setDiffusedImage(f.image);
```
-/
def scrubEffect (st : AppState) : AppState :=
  match st.scrubT with
  | none => st
  | some t =>
    match st.frames.find? (fun x => x.globalT == t) with
    | some f => if truthyStr f.image then { st with diffusedImage := f.image } else st
    | none => st

/-- A timeline entry tagged with its provenance: `origin = some sid` when
it was appended by the `onFrame` callback of stream `sid`, `origin = none`
when it was restored from the persistence store by `switchToImage`.  The
tag is ghost bookkeeping for the switch-safety proof; the underlying
`Frame` data is untouched. -/
structure TFrame where
  frame : Frame
  origin : Option Nat
deriving Repr, DecidableEq

/-- `insertFrame` lifted to tagged entries: identical `findIndex` /
replace-or-append-and-sort structure on the underlying `globalT`. -/
def insertTagged (prev : List TFrame) (tf : TFrame) : List TFrame :=
  match prev.findIdx? (fun f => f.frame.globalT == tf.frame.globalT) with
  | some idx => prev.set idx tf
  | none => (prev ++ [tf]).mergeSort (fun a b => a.frame.globalT ≤ b.frame.globalT)

/-- System state for the stream/switch interaction: `nextId` is a fresh
supply of stream identifiers, `openWs` the identifier of the WebSocket
currently open in `wsRef` (at most one, invariant I2), `activeKey` the
active image key, `timeline` the in-memory frame list of the active
image. -/
structure SysState where
  nextId : Nat
  openWs : Option Nat
  activeKey : Option String
  timeline : List TFrame
deriving Repr, DecidableEq

/-- Events of the stream/switch trace model.

Modelled from the spec: the Stream Controller (`useDiffusionStream`, not
under `src/`) per §4.2 — `run_slow` opens one duplex connection whose
step callbacks fire only while that connection is open, and `cancel()` /
closing the handle "guarantees no further `onFrame`/`onDone` callbacks
fire for the cancelled run".

* `openStream` — `slowDiffuse` opens a fresh connection for the active
  image (the orchestrator stores it in `wsRef`).
* `deliver sid f` — stream `sid` delivers a step frame to its `onFrame`
  callback; per the cancel guarantee this fires only when `sid` is still
  the open connection, and `onFrame` drops frames without an image
  payload (`useDiffusionOrchestrator.js` line 100).
* `switchTo key loaded` — `switchToImage` (from `src/`,
  `useImageSwitch.js`): closes any open stream *before* mutating the
  active key, then replaces the in-memory timeline with the `loaded`
  frames restored from the store. -/
inductive SysEvent where
  | openStream
  | deliver (sid : Nat) (f : Frame)
  | switchTo (key : Option String) (loaded : List Frame)
deriving Repr, DecidableEq

/-- One step of the stream/switch trace model. A `deliver` from a stream
that is no longer open is a no-op: its callback never fires. -/
def sysStep (st : SysState) : SysEvent → SysState
  | SysEvent.openStream =>
    { st with openWs := some st.nextId, nextId := st.nextId + 1 }
  | SysEvent.deliver sid f =>
    if st.openWs = some sid then
      if truthyStr f.image then
        { st with timeline := insertTagged st.timeline ⟨f, some sid⟩ }
      else st
    else st
  | SysEvent.switchTo key loaded =>
    { st with openWs := none, activeKey := key,
              timeline := loaded.map (fun f => ⟨f, none⟩) }

/-- Folding a whole event trace. -/
def sysRun (st : SysState) (evs : List SysEvent) : SysState :=
  evs.foldl sysStep st

/-- Invariant I1: the timeline's frames are strictly ascending in
`globalT` — equivalently sorted ascending with no two frames sharing a
`globalT`. -/
def SortedUnique (l : List Frame) : Prop :=
  l.Pairwise (fun a b => a.globalT < b.globalT)

instance : DecidablePred SortedUnique := fun l =>
  inferInstanceAs (Decidable (l.Pairwise _))

/-- Setting an index of a list to the value it already holds is the
identity. -/
theorem set_getElem_self {α : Type} : ∀ (l : List α) (i : Nat) (x : α),
    l[i]? = some x → l.set i x = l
  | [], _, _, h => by simp at h
  | a :: t, 0, x, h => by simp_all
  | a :: t, i + 1, x, h => by
    simp only [List.getElem?_cons_succ] at h
    simp [List.set_cons_succ, set_getElem_self t i x h]

/-- Replacing an element by one with the same `globalT` leaves the key
sequence unchanged. -/
theorem map_globalT_set {l : List Frame} {i : Nat} {f : Frame}
    (hi : i < l.length) (hk : l[i].globalT = f.globalT) :
    (l.set i f).map Frame.globalT = l.map Frame.globalT := by
  rw [List.map_set]
  apply set_getElem_self
  rw [List.getElem?_map, List.getElem?_eq_getElem hi]
  simp [hk]

/-- `SortedUnique` in terms of the key sequence. -/
theorem sortedUnique_iff_keys {l : List Frame} :
    SortedUnique l ↔ (l.map Frame.globalT).Pairwise (· < ·) := by
  rw [SortedUnique, List.pairwise_map]

/-- The insertion of `onFrame` preserves invariant I1. -/
theorem insertFrame_sortedUnique {prev : List Frame} {f : Frame}
    (h : SortedUnique prev) : SortedUnique (insertFrame prev f) := by
  unfold insertFrame
  cases hidx : prev.findIdx? (fun x => x.globalT == f.globalT) with
  | some idx =>
    obtain ⟨hlt, hp, -⟩ := List.findIdx?_eq_some_iff_getElem.mp hidx
    rw [sortedUnique_iff_keys,
      map_globalT_set hlt (by simpa using hp), ← sortedUnique_iff_keys]
    exact h
  | none =>
    have hnone : ∀ x ∈ prev, x.globalT ≠ f.globalT := by
      intro x hx
      have := List.findIdx?_eq_none_iff.mp hidx x hx
      simpa using this
    have hperm : List.Perm
        ((prev ++ [f]).mergeSort (fun a b => a.globalT ≤ b.globalT))
        (prev ++ [f]) := List.mergeSort_perm _ _
    have hsorted : ((prev ++ [f]).mergeSort
        (fun a b => a.globalT ≤ b.globalT)).Pairwise
        (fun a b => a.globalT ≤ b.globalT) := by
      have := @List.sorted_mergeSort Frame
        (fun (a b : Frame) => decide (a.globalT ≤ b.globalT))
        (fun a b c hab hbc => by
          simp only [decide_eq_true_eq] at *; exact le_trans hab hbc)
        (fun a b => by
          simp only [Bool.or_eq_true, decide_eq_true_eq]; exact le_total _ _)
        (prev ++ [f])
      exact this.imp (by simp)
    have hnodup : (((prev ++ [f]).mergeSort
        (fun a b => a.globalT ≤ b.globalT)).map Frame.globalT).Nodup := by
      apply (hperm.map Frame.globalT).nodup_iff.mpr
      rw [List.map_append]
      apply List.Nodup.append
      · exact (sortedUnique_iff_keys.mp h).nodup
      · simp
      · intro t ht ht'
        simp only [List.map_cons, List.map_nil, List.mem_singleton] at ht'
        obtain ⟨x, hx, rfl⟩ := List.mem_map.mp ht
        exact hnone x hx ht'
    have hne : ((prev ++ [f]).mergeSort
        (fun a b => a.globalT ≤ b.globalT)).Pairwise
        (fun a b => a.globalT ≠ b.globalT) := by
      rw [List.Nodup, List.pairwise_map] at hnodup
      exact hnodup
    exact (hsorted.and hne).imp (fun h => lt_of_le_of_ne h.1 h.2)

/-- The inserted frame is a member of the result. -/
theorem mem_insertFrame {prev : List Frame} {f : Frame} :
    f ∈ insertFrame prev f := by
  unfold insertFrame
  cases hidx : prev.findIdx? (fun x => x.globalT == f.globalT) with
  | some idx =>
    obtain ⟨hlt, -, -⟩ := List.findIdx?_eq_some_iff_getElem.mp hidx
    exact List.mem_set prev idx hlt f
  | none =>
    exact (List.mergeSort_perm _ _).mem_iff.mpr (by simp)

/-- In a timeline satisfying I1, filtering by a member's `globalT` yields
exactly that member: the key determines the frame. -/
theorem filter_key_eq_singleton {l : List Frame} {f : Frame}
    (h : SortedUnique l) (hm : f ∈ l) :
    l.filter (fun x => x.globalT == f.globalT) = [f] := by
  induction l with
  | nil => cases hm
  | cons a t ih =>
    rw [List.filter_cons]
    obtain ⟨ha, ht⟩ := List.pairwise_cons.mp h
    rcases List.mem_cons.mp hm with rfl | hmt
    · simp only [beq_self_eq_true, if_pos]
      have : t.filter (fun x => x.globalT == f.globalT) = [] := by
        rw [List.filter_eq_nil_iff]
        intro x hx
        simpa using (ha x hx).ne'
      rw [this]
    · have : (a.globalT == f.globalT) = false := by
        simpa using (ha f hmt).ne
      rw [this]
      exact ih ht hmt
    
/-- Last write wins: after inserting `f`, the unique frame carrying
`f.globalT` is `f` itself. -/
theorem insertFrame_filter {prev : List Frame} {f : Frame}
    (h : SortedUnique prev) :
    (insertFrame prev f).filter (fun x => x.globalT == f.globalT) = [f] :=
  filter_key_eq_singleton (insertFrame_sortedUnique h) mem_insertFrame

/-- `onFrame` either drops the frame or replaces the frame list by the
insertion result; the other state updates do not touch `frames`. -/
theorem onFrame_frames (key : Option String) (follow : Bool)
    (frame : Frame) (st : AppState) :
    (onFrame key follow frame st).frames =
      if truthyStr frame.image then insertFrame st.frames frame
      else st.frames := by
  unfold onFrame
  cases key <;> split_ifs <;> simp_all [apply_ite AppState.frames]

/-- `onFrame` preserves invariant I1. -/
theorem onFrame_sortedUnique {st : AppState} (h : SortedUnique st.frames)
    (key : Option String) (follow : Bool) (frame : Frame) :
    SortedUnique (onFrame key follow frame st).frames := by
  rw [onFrame_frames]
  split
  · exact insertFrame_sortedUnique h
  · exact h

/-- The initial dashboard state: nothing loaded, nothing streaming,
follow mode on (the `useState` initial values of the hooks). -/
def emptyApp : AppState where
  frames := []
  scrubT := none
  tOffset := 0
  currentImageKey := none
  uploadedImage := none
  uploadedImageDataUrl := none
  diffusedImage := none
  currentStep := 0
  isStreaming := false
  streamError := ""
  followStream := true
  analysisAvailable := false
  wsOpen := false
  savesIssued := []
  deletesIssued := []
  opensIssued := []
  fastIssued := 0

/-- **C9**: `next_offset` (`computeNextOffsetFrom`) is a pure function
with `next_offset([]) = 0`, and for every non-empty frame list the
result is the last frame's `globalT + 1`; in particular a list ending in
`{globalT: 7}` yields `8` (P5). -/
theorem computeNextOffsetFrom_spec :
    computeNextOffsetFrom [] = 0 ∧
    (∀ (fs : List Frame) (f : Frame),
        computeNextOffsetFrom (fs ++ [f]) = f.globalT + 1) ∧
    computeNextOffsetFrom
        [{ globalT := 3 }, { globalT := 7 : Frame }] = 8 := by
  refine ⟨rfl, ?_, by decide⟩
  intro fs f
  simp [computeNextOffsetFrom, List.getLast?_concat]

/-- **C10**: a step frame without an image payload is silently dropped by
`onFrame`: the whole application state — timeline, displayed image,
issued persistence calls — is exactly unchanged, even when the frame's
`globalT` is new. -/
theorem onFrame_drops_imageless (key : Option String) (follow : Bool)
    (frame : Frame) (st : AppState)
    (h : truthyStr frame.image = false) :
    onFrame key follow frame st = st := by
  unfold onFrame
  simp [h]

/-- Witness for `onFrame_drops_imageless`: a fresh `globalT = 5` frame
with no image payload leaves the initial state untouched. -/
theorem onFrame_drops_imageless_witness :
    truthyStr (Frame.image { globalT := 5 }) = false ∧
    onFrame (some "img") true { globalT := 5 } emptyApp = emptyApp :=
  ⟨by decide,
   onFrame_drops_imageless (some "img") true { globalT := 5 } emptyApp (by decide)⟩

/-- **C8**: `diffuse` with no image loaded (falsy `uploadedImageDataUrl`)
only reports the validation failure message; the timeline, `tOffset`,
displayed image and streaming state are unchanged and no request is
issued. -/
theorem diffuse_no_image_validation (url key : Option String)
    (mode : Mode) (st : AppState) (h : truthyStr url = false) :
    diffuse url key mode st
        = { st with streamError := "Please upload an image first." } ∧
    (diffuse url key mode st).frames = st.frames ∧
    (diffuse url key mode st).tOffset = st.tOffset ∧
    (diffuse url key mode st).diffusedImage = st.diffusedImage ∧
    (diffuse url key mode st).isStreaming = st.isStreaming ∧
    (diffuse url key mode st).opensIssued = st.opensIssued ∧
    (diffuse url key mode st).fastIssued = st.fastIssued := by
  have heq : diffuse url key mode st
      = { st with streamError := "Please upload an image first." } := by
    unfold diffuse
    simp [h]
  exact ⟨heq, by rw [heq], by rw [heq], by rw [heq], by rw [heq],
    by rw [heq], by rw [heq]⟩

/-- Witness for `diffuse_no_image_validation`: running with no uploaded
image from the initial state. -/
theorem diffuse_no_image_validation_witness :
    truthyStr none = false ∧
    diffuse none none Mode.slow emptyApp
      = { emptyApp with streamError := "Please upload an image first." } :=
  ⟨by decide,
   (diffuse_no_image_validation none none Mode.slow emptyApp (by decide)).1⟩

/-- **C7**: every slow-mode `diffuse` starts from a reset timeline: the
frames are cleared, the displayed frame and progress counter are reset,
`tOffset` is 0 regardless of what `computeNextOffsetFrom` would return
for the previously stored frames (the state `st` is arbitrary), and the
`slowDiffuse` stream is opened at offset 0. -/
theorem diffuse_slow_resets (url key : Option String) (st : AppState)
    (h : truthyStr url = true) :
    (diffuse url key Mode.slow st).frames = [] ∧
    (diffuse url key Mode.slow st).tOffset = 0 ∧
    (diffuse url key Mode.slow st).diffusedImage = none ∧
    (diffuse url key Mode.slow st).currentStep = 0 ∧
    (diffuse url key Mode.slow st).opensIssued = st.opensIssued ++ [0] := by
  unfold diffuse resetTimelineForActiveImage
  cases key <;> split_ifs <;>
    simp_all [apply_ite AppState.frames, apply_ite AppState.tOffset,
      apply_ite AppState.diffusedImage, apply_ite AppState.currentStep,
      apply_ite AppState.opensIssued]

/-- Witness for `diffuse_slow_resets`: a state whose stored frames would
give `computeNextOffsetFrom = 8` still restarts at offset 0. -/
theorem diffuse_slow_resets_witness :
    truthyStr (some "data-url") = true ∧
    ((diffuse (some "data-url") (some "img") Mode.slow
        { emptyApp with frames := [{ globalT := 7, image := some "a" }],
                        tOffset := 8 }).frames = [] ∧
     (diffuse (some "data-url") (some "img") Mode.slow
        { emptyApp with frames := [{ globalT := 7, image := some "a" }],
                        tOffset := 8 }).tOffset = 0 ∧
     (diffuse (some "data-url") (some "img") Mode.slow
        { emptyApp with frames := [{ globalT := 7, image := some "a" }],
                        tOffset := 8 }).diffusedImage = none ∧
     (diffuse (some "data-url") (some "img") Mode.slow
        { emptyApp with frames := [{ globalT := 7, image := some "a" }],
                        tOffset := 8 }).currentStep = 0 ∧
     (diffuse (some "data-url") (some "img") Mode.slow
        { emptyApp with frames := [{ globalT := 7, image := some "a" }],
                        tOffset := 8 }).opensIssued
       = ({ emptyApp with frames := [{ globalT := 7, image := some "a" }],
                          tOffset := 8 } : AppState).opensIssued ++ [0]) :=
  ⟨by decide,
   diffuse_slow_resets (some "data-url") (some "img")
     { emptyApp with frames := [{ globalT := 7, image := some "a" }],
                     tOffset := 8 } (by decide)⟩

/-- **C1**: for every sequence of step frames delivered to the slow-run
`onFrame` handler, starting from a timeline sorted strictly ascending by
`globalT`, the timeline stays sorted ascending by `globalT` with no two
frames sharing a `globalT`, for every arrival order (`arrivals` ranges
over all finite sequences, so the statement holds after each individual
insertion: every intermediate timeline is the result for the
corresponding arrival-sequence prefix). -/
theorem deliverAll_sorted_unique (st : AppState)
    (h : SortedUnique st.frames) (key : Option String) (follow : Bool)
    (arrivals : List Frame) :
    ((deliverAll key follow arrivals st).frames.map Frame.globalT).Sorted
        (· ≤ ·) ∧
    ((deliverAll key follow arrivals st).frames.map Frame.globalT).Nodup := by
  have main : SortedUnique (deliverAll key follow arrivals st).frames := by
    unfold deliverAll
    induction arrivals generalizing st with
    | nil => exact h
    | cons a t ih =>
      exact ih (onFrame key follow a st) (onFrame_sortedUnique h key follow a)
  constructor
  · exact (sortedUnique_iff_keys.mp main).imp (fun hab => le_of_lt hab)
  · exact (sortedUnique_iff_keys.mp main).imp (fun hab => ne_of_lt hab)

/-- Witness for `deliverAll_sorted_unique`: out-of-order arrivals
`globalT = 2, 0, 1` into the empty initial timeline. -/
theorem deliverAll_sorted_unique_witness :
    SortedUnique emptyApp.frames ∧
    (((deliverAll (some "img") true
          [{ globalT := 2, image := some "c" }, { globalT := 0, image := some "a" },
            { globalT := 1, image := some "b" }]
          emptyApp).frames.map Frame.globalT).Sorted (· ≤ ·) ∧
      ((deliverAll (some "img") true
          [{ globalT := 2, image := some "c" }, { globalT := 0, image := some "a" },
            { globalT := 1, image := some "b" }]
          emptyApp).frames.map Frame.globalT).Nodup) :=
  ⟨by decide,
   deliverAll_sorted_unique emptyApp (by decide) (some "img") true
     [{ globalT := 2, image := some "c" }, { globalT := 0, image := some "a" },
       { globalT := 1, image := some "b" }]⟩

/-- The two concrete duplicate frames of Scenario C: same `globalT = 0`,
different payloads. -/
def frameDup1 : Frame := { globalT := 0, image := some "payload-one" }

/-- Second duplicate frame of Scenario C (the later write). -/
def frameDup2 : Frame := { globalT := 0, image := some "payload-two" }

/-- **C2**: inserting two frames with the same `globalT` into a timeline
satisfying I1 leaves exactly one frame carrying that `globalT`, equal to
the later-inserted value; concretely, receiving `globalT = 0` and then a
duplicate `globalT = 0` with a different payload through `onFrame`
leaves the timeline at length 1 holding the second payload. -/
theorem timeline_dedup (prev : List Frame) (f1 f2 : Frame)
    (hsu : SortedUnique prev) (hkey : f1.globalT = f2.globalT) :
    ((insertFrame (insertFrame prev f1) f2).filter
        (fun x => x.globalT == f1.globalT) = [f2]) ∧
    (onFrame none true frameDup2 (onFrame none true frameDup1 emptyApp)).frames
        = [frameDup2] := by
  constructor
  · rw [hkey]
    exact insertFrame_filter (insertFrame_sortedUnique hsu)
  · simp [onFrame, insertFrame, emptyApp, frameDup1, frameDup2, truthyStr]

/-- Witness for `timeline_dedup`: duplicates of `globalT = 0` into the
empty timeline. -/
theorem timeline_dedup_witness :
    SortedUnique ([] : List Frame) ∧ frameDup1.globalT = frameDup2.globalT ∧
    (((insertFrame (insertFrame [] frameDup1) frameDup2).filter
        (fun x => x.globalT == frameDup1.globalT) = [frameDup2]) ∧
      (onFrame none true frameDup2 (onFrame none true frameDup1 emptyApp)).frames
        = [frameDup2]) :=
  ⟨by decide, by decide,
   timeline_dedup [] frameDup1 frameDup2 (by decide) (by decide)⟩

/-- The chart-point derivation as the specification words it (§4.5 and
Scenario E), amended only in the metric key: the cosine metric is read
under the case-sensitive property name `"Cosine"` that the code uses.
Each frame yields `{x: globalT, residual: 1 − Cosine or null,
beta: betas or null}`, and the point is dropped exactly when both derived
values are null. -/
def chartPointsSpec (frames : List Frame) : List ChartPoint :=
  frames.filterMap fun f =>
    let residual : Option ℚ :=
      (finiteNum (f.metrics.lookup "Cosine")).map (fun c => 1 - c)
    let beta : Option ℚ := finiteNum f.betas
    if residual = none ∧ beta = none then none
    else some { x := f.globalT, residual := residual, beta := beta }

/-- First frame of Scenario E: `{globalT: 0, metrics: {cosine: 1}}` —
note the lower-case `cosine` key used by the claim. -/
def frameScenE1 : Frame := { globalT := 0, metrics := [("cosine", JSVal.num 1)] }

/-- Second frame of Scenario E: `{globalT: 1, betas: 0.002}`. -/
def frameScenE2 : Frame := { globalT := 1, betas := some (JSVal.num (2/1000)) }

/-- **C4, counterexample**: on the claim's own input the code does *not*
return the claimed two points: the code reads the metric under the key
`"Cosine"`, so the first frame's lower-case `cosine` metric is invisible,
its point has both derived values null and is filtered out — only one
point remains, so the claimed output (which has two) is wrong. -/
theorem useChartPoints_scenE_counterexample :
    useChartPoints [frameScenE1, frameScenE2] ≠
      [{ x := 0, residual := some 0, beta := none },
        { x := 1, residual := none, beta := some (2/1000) }] := by
  apply ne_of_apply_ne List.length
  simp [useChartPoints, finiteNum, frameScenE1, frameScenE2, List.lookup]

/-- **C4, amended**: `useChartPoints` maps each frame to
`{x: globalT, residual: 1 − metrics.Cosine when that metric (under the
case-sensitive key "Cosine") is a finite number else null, beta: betas
when finite else null}` and drops points where both derived values are
null (first conjunct: equality with the spec-level description);
on Scenario E's input it returns only `[{x:1, residual:null,
beta:0.002}]` (second conjunct), and it returns the two claimed points
when the first frame's metric is keyed `"Cosine"` (third conjunct). -/
theorem useChartPoints_spec :
    (∀ frames, useChartPoints frames = chartPointsSpec frames) ∧
    useChartPoints [frameScenE1, frameScenE2]
        = [{ x := 1, residual := none, beta := some (2/1000) }] ∧
    useChartPoints
        [{ frameScenE1 with metrics := [("Cosine", JSVal.num 1)] }, frameScenE2]
        = [{ x := 0, residual := some 0, beta := none },
            { x := 1, residual := none, beta := some (2/1000) }] := by
  refine ⟨?_, ?_, ?_⟩
  · intro frames
    induction frames with
    | nil => rfl
    | cons f t ih =>
      simp only [useChartPoints, chartPointsSpec, List.map_cons,
        List.filter_cons, List.filterMap_cons] at ih ⊢
      cases hc : finiteNum (f.metrics.lookup "Cosine") <;>
        cases hb : finiteNum f.betas <;>
          simp_all [hc, hb]
  · simp [useChartPoints, finiteNum, frameScenE1, frameScenE2, List.lookup]
  · simp [useChartPoints, finiteNum, frameScenE1, frameScenE2, List.lookup]

/-- A state used to exhibit the scrub-path divergences: follow mode on,
an old preview displayed, and a timeline whose `globalT = 1` frame has no
image payload. -/
def scrubDemoState : AppState :=
  { emptyApp with diffusedImage := some "old",
                  frames := [{ globalT := 1 }] }

/-- **C5, counterexample**: the claim fails on two concrete scrub paths.
(1) A chart click (`NoiseChart`/`BetaChart` are wired with the raw
`setScrubT`) assigns `scrubT = 1` but leaves follow mode *enabled*,
contradicting "after the assignment follow mode is disabled".
(2) Scrubbing to `globalT = 1` via the timeline strip when that frame
has no image payload leaves the old preview displayed, contradicting
"the visible diffused image becomes the image of the frame whose
`globalT` equals t when such a frame exists". -/
theorem scrub_counterexample :
    ((scrubEffect (chartClick (some 1) scrubDemoState)).scrubT = some 1 ∧
      (scrubEffect (chartClick (some 1) scrubDemoState)).followStream = true) ∧
    ((scrubEffect (handleSetScrubT (some 1) scrubDemoState)).diffusedImage
        = some "old" ∧
      scrubDemoState.frames.find? (fun x => x.globalT == 1)
        = some { globalT := 1 }) := by
  refine ⟨⟨?_, ?_⟩, ?_, ?_⟩ <;>
    simp [scrubEffect, chartClick, handleSetScrubT, scrubDemoState, emptyApp,
      truthyStr]

/-- **C5, amended**: setting a non-null `scrubT` through the timeline
strip (`handleSetScrubT`) disables follow mode; a chart click sets
`scrubT` but leaves follow mode unchanged (the charts are wired with the
raw setter); and the preview effect pins the visible diffused image to
the scrubbed frame's image whenever a frame with that `globalT` exists
*and carries an image payload*. -/
theorem scrub_paths_spec :
    (∀ (t : Int) (st : AppState),
        (handleSetScrubT (some t) st).scrubT = some t ∧
        (handleSetScrubT (some t) st).followStream = false) ∧
    (∀ (t : Int) (st : AppState),
        (chartClick (some t) st).scrubT = some t ∧
        (chartClick (some t) st).followStream = st.followStream) ∧
    (∀ (st : AppState) (t : Int) (f : Frame),
        st.scrubT = some t →
        st.frames.find? (fun x => x.globalT == t) = some f →
        truthyStr f.image = true →
        (scrubEffect st).diffusedImage = f.image) := by
  refine ⟨fun t st => ⟨rfl, rfl⟩, fun t st => ⟨rfl, rfl⟩, ?_⟩
  intro st t f hscrub hfind himg
  simp [scrubEffect, hscrub, hfind, himg]

/-- Witness for `scrub_paths_spec`: concrete strip scrub, chart click,
and preview pinning on a frame that does carry an image. -/
theorem scrub_paths_spec_witness :
    ((handleSetScrubT (some 1) emptyApp).scrubT = some 1 ∧
      (handleSetScrubT (some 1) emptyApp).followStream = false) ∧
    ((chartClick (some 1) emptyApp).scrubT = some 1 ∧
      (chartClick (some 1) emptyApp).followStream = emptyApp.followStream) ∧
    (scrubEffect { emptyApp with
        scrubT := some 1
        frames := [{ globalT := 1, image := some "img-1" }] }).diffusedImage
      = Frame.image { globalT := 1, image := some "img-1" } :=
  ⟨scrub_paths_spec.1 1 emptyApp,
   scrub_paths_spec.2.1 1 emptyApp,
   scrub_paths_spec.2.2
     { emptyApp with
         scrubT := some 1
         frames := [{ globalT := 1, image := some "img-1" }] }
     1 { globalT := 1, image := some "img-1" } (by decide) (by decide) (by decide)⟩

/-- A persistence store holding, for image key `"kA"`, a single stored
frame that carries no image payload. -/
def storeDemo : String → List Frame := fun k =>
  if k = "kA" then [{ globalT := 0 }] else []

/-- **C6, counterexample**: switching to key `"kA"` whose loaded timeline
is non-empty but whose last frame has no image payload leaves the *old*
preview displayed — the displayed diffused image is neither the last
loaded frame's image (`none`) nor cleared; the claim's display clause
fails at this input. -/
theorem switch_restore_counterexample :
    storeDemo "kA" ≠ [] ∧
    ((storeDemo "kA").getLast?.bind Frame.image = none) ∧
    (switchToImage storeDemo (some "kA") (some "url") (some "data")
        { emptyApp with diffusedImage := some "old" }).diffusedImage
      = some "old" := by
  refine ⟨by decide, by decide, by decide⟩

/-- `switchToImage` always clears the scrub position. -/
theorem switchToImage_scrubT (store : String → List Frame)
    (key imageUrl dataUrl : Option String) (st : AppState) :
    (switchToImage store key imageUrl dataUrl st).scrubT = none := by
  unfold switchToImage
  dsimp only
  cases st.currentImageKey <;> split_ifs <;> (repeat' split) <;>
    first | rfl | simp_all

/-- `switchToImage` always re-enables follow mode. -/
theorem switchToImage_followStream (store : String → List Frame)
    (key imageUrl dataUrl : Option String) (st : AppState) :
    (switchToImage store key imageUrl dataUrl st).followStream = true := by
  unfold switchToImage
  dsimp only

/-- With a truthy key, `switchToImage` sets `tOffsetRef` to
`computeNextOffsetFrom` of the loaded timeline. -/
theorem switchToImage_tOffset (store : String → List Frame)
    (key imageUrl dataUrl : Option String) (st : AppState) (k : String)
    (hkey : key = some k) (hk : k ≠ "") :
    (switchToImage store key imageUrl dataUrl st).tOffset
      = computeNextOffsetFrom (store k) := by
  subst hkey
  have ht : truthyStr (some k) = true := by simp [truthyStr, hk]
  unfold switchToImage
  dsimp only
  rw [ht]
  all_goals cases st.currentImageKey <;> split_ifs <;> (repeat' split) <;>
    first | rfl | simp_all

/-- With a truthy key whose stored timeline is empty, `switchToImage`
clears the diffused preview. -/
theorem switchToImage_preview_empty (store : String → List Frame)
    (key imageUrl dataUrl : Option String) (st : AppState) (k : String)
    (hkey : key = some k) (hk : k ≠ "") (hempty : store k = []) :
    (switchToImage store key imageUrl dataUrl st).diffusedImage = none := by
  subst hkey
  have ht : truthyStr (some k) = true := by simp [truthyStr, hk]
  unfold switchToImage
  dsimp only
  rw [ht]
  all_goals cases st.currentImageKey <;> split_ifs <;> (repeat' split) <;>
    first | rfl | simp_all

/-- With a truthy key whose stored timeline is non-empty, `switchToImage`
restores the preview from the last loaded frame when it carries an image
payload, and otherwise leaves the previous preview in place. -/
theorem switchToImage_preview_last (store : String → List Frame)
    (key imageUrl dataUrl : Option String) (st : AppState) (k : String)
    (hkey : key = some k) (hk : k ≠ "") (last : Frame)
    (hlast : (store k).getLast? = some last) :
    (switchToImage store key imageUrl dataUrl st).diffusedImage
      = if truthyStr last.image then last.image else st.diffusedImage := by
  subst hkey
  have ht : truthyStr (some k) = true := by simp [truthyStr, hk]
  unfold switchToImage
  dsimp only
  rw [ht]
  all_goals cases st.currentImageKey <;> split_ifs <;> (repeat' split) <;>
    first | rfl | simp_all

/-- **C6, amended**: after `switchToImage` with a truthy key `k`:
`scrubT` is null, `tOffset = computeNextOffsetFrom(loaded)`, follow mode
is re-enabled, the preview is cleared when nothing was loaded, and when
the loaded timeline is non-empty the preview becomes its last frame's
image *if that frame has an image payload* — otherwise the previously
displayed image is retained (the only divergence from the claim). -/
theorem switchToImage_spec (store : String → List Frame)
    (key imageUrl dataUrl : Option String) (st : AppState) (k : String)
    (hkey : key = some k) (hk : k ≠ "") :
    (switchToImage store key imageUrl dataUrl st).scrubT = none ∧
    (switchToImage store key imageUrl dataUrl st).tOffset
        = computeNextOffsetFrom (store k) ∧
    (switchToImage store key imageUrl dataUrl st).followStream = true ∧
    (store k = [] →
      (switchToImage store key imageUrl dataUrl st).diffusedImage = none) ∧
    (∀ last, (store k).getLast? = some last →
      (switchToImage store key imageUrl dataUrl st).diffusedImage
        = if truthyStr last.image then last.image else st.diffusedImage) :=
  ⟨switchToImage_scrubT store key imageUrl dataUrl st,
   switchToImage_tOffset store key imageUrl dataUrl st k hkey hk,
   switchToImage_followStream store key imageUrl dataUrl st,
   fun hempty =>
     switchToImage_preview_empty store key imageUrl dataUrl st k hkey hk hempty,
   fun last hlast =>
     switchToImage_preview_last store key imageUrl dataUrl st k hkey hk
       last hlast⟩

/-- Witness for `switchToImage_spec`: switching to `"kA"` from the
initial state; the loaded timeline's single frame has no image payload,
so the displayed image stays `emptyApp.diffusedImage`. -/
theorem switchToImage_spec_witness :
    (some "kA" : Option String) = some "kA" ∧ ("kA" : String) ≠ "" ∧
    (switchToImage storeDemo (some "kA") (some "u") (some "d")
        emptyApp).scrubT = none ∧
    (switchToImage storeDemo (some "kA") (some "u") (some "d")
        emptyApp).tOffset = computeNextOffsetFrom (storeDemo "kA") ∧
    (switchToImage storeDemo (some "kA") (some "u") (some "d")
        emptyApp).followStream = true ∧
    (storeDemo "kA").getLast? = some { globalT := 0 } ∧
    (switchToImage storeDemo (some "kA") (some "u") (some "d")
        emptyApp).diffusedImage
      = (if truthyStr (Frame.image { globalT := 0 })
          then Frame.image { globalT := 0 } else emptyApp.diffusedImage) := by
  have h := switchToImage_spec storeDemo (some "kA") (some "u") (some "d")
    emptyApp "kA" rfl (by decide)
  exact ⟨rfl, by decide, h.1, h.2.1, h.2.2.1, by decide,
    h.2.2.2.2 { globalT := 0 } (by decide)⟩

/-- Members of `insertTagged` come from the previous timeline or are the
newly inserted entry. -/
theorem mem_insertTagged {prev : List TFrame} {tf x : TFrame}
    (hx : x ∈ insertTagged prev tf) : x ∈ prev ∨ x = tf := by
  unfold insertTagged at hx
  cases hidx : prev.findIdx? (fun f => f.frame.globalT == tf.frame.globalT) with
  | some idx =>
    simp only [hidx] at hx
    exact List.mem_or_eq_of_mem_set hx
  | none =>
    simp only [hidx, List.mem_mergeSort, List.mem_append,
      List.mem_singleton] at hx
    exact hx

/-- Ghost invariant for the switch-safety proof: `c` bounds from below
the open stream's id, the fresh-id counter, and the id of every
stream-delivered entry in the timeline. -/
def StreamInv (c : Nat) (st : SysState) : Prop :=
  (∀ s, st.openWs = some s → c ≤ s) ∧ c ≤ st.nextId ∧
  (∀ tf ∈ st.timeline, ∀ s, tf.origin = some s → c ≤ s)

/-- Every event of the trace model preserves `StreamInv`. -/
theorem streamInv_step {c : Nat} {st : SysState} (h : StreamInv c st)
    (e : SysEvent) : StreamInv c (sysStep st e) := by
  obtain ⟨hopen, hnext, htl⟩ := h
  cases e with
  | openStream =>
    refine ⟨?_, ?_, ?_⟩
    · intro s hs
      simp only [sysStep, Option.some.injEq] at hs
      omega
    · simp only [sysStep]
      omega
    · simpa only [sysStep] using htl
  | deliver sid f =>
    simp only [sysStep]
    split_ifs with h1 h2
    · refine ⟨hopen, hnext, ?_⟩
      intro tf htf s hs
      rcases mem_insertTagged htf with hmem | rfl
      · exact htl tf hmem s hs
      · simp only [Option.some.injEq] at hs
        subst hs
        exact hopen _ h1
    · exact ⟨hopen, hnext, htl⟩
    · exact ⟨hopen, hnext, htl⟩
  | switchTo key loaded =>
    refine ⟨?_, ?_, ?_⟩
    · intro s hs
      simp [sysStep] at hs
    · simpa only [sysStep] using hnext
    · intro tf htf s hs
      simp only [sysStep, List.mem_map] at htf
      obtain ⟨f, -, rfl⟩ := htf
      simp at hs

/-- `StreamInv` is preserved by whole traces. -/
theorem streamInv_run {c : Nat} {st : SysState} (h : StreamInv c st)
    (evs : List SysEvent) : StreamInv c (sysRun st evs) := by
  induction evs generalizing st with
  | nil => exact h
  | cons e t ih =>
    simp only [sysRun, List.foldl_cons]
    exact ih (streamInv_step h e)

/-- **C3**: if a stream `sA` (opened while image A was active — any state
with `openWs = some sA` and a fresh-id counter above every open id) is
running when `switchTo B` executes, then after the switch — which closes
the WebSocket before mutating the active key, per the source order of
`switchToImage` — no entry of the in-memory timeline ever originates
from stream `sA`, whatever events follow: delivery callbacks of a closed
stream never fire, and any later stream gets a strictly larger fresh id. -/
theorem switch_stream_safety (st : SysState) (sA : Nat)
    (hA : st.openWs = some sA)
    (hfresh : ∀ s, st.openWs = some s → s < st.nextId)
    (key : Option String) (loaded : List Frame) (evs : List SysEvent) :
    ∀ tf ∈ (sysRun (sysStep st (SysEvent.switchTo key loaded)) evs).timeline,
      tf.origin ≠ some sA := by
  have hmid : StreamInv (sA + 1) (sysStep st (SysEvent.switchTo key loaded)) := by
    refine ⟨?_, ?_, ?_⟩
    · intro s hs
      simp [sysStep] at hs
    · have := hfresh sA hA
      simp only [sysStep]
      omega
    · intro tf htf s hs
      simp only [sysStep, List.mem_map] at htf
      obtain ⟨f, -, rfl⟩ := htf
      simp at hs
  have hfin := streamInv_run hmid evs
  intro tf htf hcon
  have := hfin.2.2 tf htf sA hcon
  omega

/-- The concrete pre-switch system state for the witness: stream 0 is
open for active image "A", one of its frames already in the timeline. -/
def stW : SysState where
  nextId := 1
  openWs := some 0
  activeKey := some "A"
  timeline := [{ frame := { globalT := 0, image := some "x" }, origin := some 0 }]

/-- Witness for `switch_stream_safety`: after switching to image "B"
(loading one stored frame), a late delivery from the cancelled stream 0
is dropped, and the loaded entry does not originate from stream 0. -/
theorem switch_stream_safety_witness :
    stW.openWs = some 0 ∧
    TFrame.origin { frame := { globalT := 0, image := some "y" }, origin := none }
      ≠ some 0 :=
  ⟨rfl,
   switch_stream_safety stW 0 rfl
     (fun s hs => by simp [stW] at hs ⊢; omega)
     (some "B") [{ globalT := 0, image := some "y" }]
     [SysEvent.deliver 0 { globalT := 5, image := some "z" }]
     { frame := { globalT := 0, image := some "y" }, origin := none }
     (by decide)⟩
